import Mathlib

/-!
# Verification of the if-stack conditional evaluator

Shallow embedding of `src/ifstack.c` (Compyx/if-stack): a LIFO stack of
IF-nesting levels with a global "current truth" flag, driven by
IF / ELSE / ENDIF directives.

The C module keeps:
* a doubly linked list of `ifstack_t` nodes, each holding `state`
  (the branch condition, negated in place when ELSE fires) and `in_else`
  (whether the node's ELSE branch has been taken); `stack` points at the
  top (innermost) node;
* a global `bool current_state` (the public "is active" signal, read by
  `ifstack_true`);
* a global error code `int ifstack_errno`.

We model the linked list as a Lean `List` with the head being the TOP
(innermost) node; `node.down` in C corresponds to the tail of the list, and
the bottom-to-top traversal used by `ifstack_print` corresponds to
traversing the reversed list.
-/

namespace IfStack

/-- One node of the IF stack (C struct `ifstack_s`): `state` is the branch
IF condition, negated in place by `ifstack_else`; `in_else` records whether
the node is currently in its local ELSE branch. -/
structure IfNode where
  state    : Bool
  in_else  : Bool
deriving Repr, DecidableEq

/-- The module-level mutable state of `ifstack.c`: the node list (head =
top of stack, i.e. the C `stack` pointer; the C `stack_bottom` pointer is
the last element), the global `current_state` truth flag, and
`ifstack_errno`. -/
structure IfStackState where
  stack         : List IfNode
  current_state : Bool
  errno         : Nat
deriving Repr, DecidableEq

/-- C enum value `IFSTACK_ERR_OK`. -/
def IFSTACK_ERR_OK : Nat := 0

/-- C enum value `IFSTACK_ERR_ELSE_WITHOUT_IF`. -/
def IFSTACK_ERR_ELSE_WITHOUT_IF : Nat := 1

/-- C enum value `IFSTACK_ERR_ENDIF_WITHOUT_IF`. -/
def IFSTACK_ERR_ENDIF_WITHOUT_IF : Nat := 2

/-- `ifstack_init`: empty stack, `ifstack_errno = 0`, `current_state = true`. -/
def ifstack_init : IfStackState :=
  { stack := [], current_state := true, errno := IFSTACK_ERR_OK }

/-- `ifstack_push`: allocate a node with the given `state`, `in_else = false`,
and link it on top of the stack (out-of-memory aborts the process and is not
modelled). -/
def ifstack_push (state : Bool) (s : IfStackState) : IfStackState :=
  { s with stack := { state := state, in_else := false } :: s.stack }

/-- `ifstack_pull`: free the top node; if the stack becomes empty set
`current_state = true`, otherwise set `current_state` to the new top node's
`state`.  On an empty stack the C function prints an error and calls
`exit(1)`; that case is modelled as `none`. -/
def ifstack_pull (s : IfStackState) : Option IfStackState :=
  match s.stack with
  | [] => none
  | _ :: rest =>
    match rest with
    | [] => some { s with stack := [], current_state := true }
    | parent :: _ => some { s with stack := rest, current_state := parent.state }

/-- `ifstack_true`: return the global `current_state`. -/
def ifstack_true (s : IfStackState) : Bool :=
  s.current_state

/-- `ifstack_if`: push a node carrying `state`; then, if the pushed node has
no `down` neighbour (the stack was empty) or its `down` neighbour's `state`
field is true, set `current_state := state`; otherwise `current_state` is
left unchanged. -/
def ifstack_if (state : Bool) (s : IfStackState) : IfStackState :=
  let s' := ifstack_push state s
  match s.stack with
  | [] => { s' with current_state := state }
  | down :: _ =>
    if down.state then { s' with current_state := state } else s'

/-- `ifstack_else`: if the stack is empty or the top node is already in its
ELSE branch, set `ifstack_errno := IFSTACK_ERR_ELSE_WITHOUT_IF` and return
`false`.  Otherwise set the top node's `in_else := true`, negate its `state`
in place, and update `current_state`: if it is currently true, set it to
false; if it is false, set it to true when the top node has no `down`
neighbour or the `down` neighbour's `state` is true, and leave it unchanged
otherwise.  Returns `true` on success.  (The `printf` debug output has no
effect on state and is not modelled.) -/
def ifstack_else (s : IfStackState) : Bool × IfStackState :=
  match s.stack with
  | [] => (false, { s with errno := IFSTACK_ERR_ELSE_WITHOUT_IF })
  | top :: rest =>
    if top.in_else then
      (false, { s with errno := IFSTACK_ERR_ELSE_WITHOUT_IF })
    else
      let top' : IfNode := { state := !top.state, in_else := true }
      let cur' : Bool :=
        if s.current_state then
          false
        else
          match rest with
          | [] => true
          | down :: _ => if down.state then true else s.current_state
      (true, { s with stack := top' :: rest, current_state := cur' })

/-- `ifstack_endif`: on an empty stack set
`ifstack_errno := IFSTACK_ERR_ENDIF_WITHOUT_IF` and return `false`;
otherwise pull the top node off the stack (via `ifstack_pull`) and return
`true`. -/
def ifstack_endif (s : IfStackState) : Bool × IfStackState :=
  match s.stack with
  | [] => (false, { s with errno := IFSTACK_ERR_ENDIF_WITHOUT_IF })
  | _ :: _ =>
    match ifstack_pull s with
    | some s' => (true, s')
    | none => (false, s)

/-- `ifstack_print`: emit each node's `state` bit, walking from
`stack_bottom` upwards via the `up` links, i.e. outermost level first.  We
model the emitted sequence of bits as a list of booleans. -/
def ifstack_print (s : IfStackState) : List Bool :=
  (s.stack.map IfNode.state).reverse

/-- `ifstack_free`: release every node; clears the stack, touching neither
`current_state` nor `ifstack_errno`. -/
def ifstack_free (s : IfStackState) : IfStackState :=
  { s with stack := [] }

/-- `ifstack_reset`: `ifstack_free` followed by `ifstack_init`. -/
def ifstack_reset (_s : IfStackState) : IfStackState :=
  ifstack_init

/-! ## Driving the stack with directive sequences

The CLI driver (`main.c`) classifies each input line and calls exactly one
of `ifstack_if` / `ifstack_else` / `ifstack_endif` per directive line.  A
reachable state is one produced from `ifstack_init` by some sequence of
these calls. -/

/-- A single IF / ELSE / ENDIF directive, as dispatched by `handle_line`
in `main.c`. -/
inductive IfOp where
  | opIf    : Bool → IfOp
  | opElse  : IfOp
  | opEndif : IfOp
deriving Repr, DecidableEq

/-- Execute one directive on the stack state (failed ELSE / ENDIF calls
leave the stack as the C functions leave it, i.e. only `ifstack_errno`
changed). -/
def ifstack_step (s : IfStackState) (op : IfOp) : IfStackState :=
  match op with
  | .opIf c   => ifstack_if c s
  | .opElse   => (ifstack_else s).2
  | .opEndif  => (ifstack_endif s).2

/-- Run a directive sequence from the freshly initialized stack. -/
def ifstack_run (ops : List IfOp) : IfStackState :=
  ops.foldl ifstack_step ifstack_init

/-- A state is reachable when some directive sequence produces it from
`ifstack_init`. -/
def Reachable (s : IfStackState) : Prop :=
  ∃ ops : List IfOp, ifstack_run ops = s

/-- Whether a directive sequence is balanced at nesting depth `d`: every IF
is matched by exactly one later ENDIF, no ENDIF closes a level that is not
open, and every ELSE sits inside some open level. -/
def balancedFrom : Nat → List IfOp → Bool
  | 0, [] => true
  | _ + 1, [] => false
  | d, .opIf _ :: rest => balancedFrom (d + 1) rest
  | d, .opElse :: rest => if d = 0 then false else balancedFrom d rest
  | d, .opEndif :: rest =>
    match d with
    | 0 => false
    | d' + 1 => balancedFrom d' rest

/-- A balanced directive sequence: each IF matched by exactly one later
ENDIF, ELSE only inside an open level. -/
def Balanced (ops : List IfOp) : Bool :=
  balancedFrom 0 ops

/-! ## Specification-side model (for the snapshot refinement claim)

The spec's data model (spec.md section 3 / 4.1) for comparison with the
code: a level stores the raw IF condition, the `else_taken` flag and the
derived `cumulative_active`; the effective condition is the raw condition
negated when the ELSE has been taken.  These definitions follow the spec's
words, not the C source, and exist only to be compared with the embedding
above. -/

/-- Spec-side level (spec.md section 3): raw IF condition, whether ELSE has
fired, and the derived cumulative activation. -/
structure SpecLevel where
  raw_condition     : Bool
  else_taken        : Bool
  cumulative_active : Bool
deriving Repr, DecidableEq

/-- Spec-side effective condition of a level: the raw condition, negated
when that level's ELSE has been taken. -/
def SpecLevel.effective (l : SpecLevel) : Bool :=
  if l.else_taken then !l.raw_condition else l.raw_condition

/-- Spec-side `push_if` (spec.md section 4.1): append a level with the given
raw condition, `else_taken = false`, and
`cumulative_active = condition AND parent.cumulative_active` (or just the
condition when there is no parent).  Head of the list is the top
(innermost) level. -/
def spec_push (c : Bool) (ls : List SpecLevel) : List SpecLevel :=
  let parentCum : Bool :=
    match ls with
    | [] => true
    | p :: _ => p.cumulative_active
  { raw_condition := c, else_taken := false,
    cumulative_active := c && parentCum } :: ls

/-- Spec-side `take_else` (spec.md section 4.1): rejected (state unchanged)
when no level is open or the top level already took its ELSE; otherwise set
`else_taken = true` and recompute
`cumulative_active = (NOT raw_condition) AND parent.cumulative_active`. -/
def spec_else (ls : List SpecLevel) : List SpecLevel :=
  match ls with
  | [] => ls
  | t :: rest =>
    if t.else_taken then
      ls
    else
      let parentCum : Bool :=
        match rest with
        | [] => true
        | p :: _ => p.cumulative_active
      { raw_condition := t.raw_condition, else_taken := true,
        cumulative_active := (!t.raw_condition) && parentCum } :: rest

/-- Spec-side `pop_endif` (spec.md section 4.1): rejected (state unchanged)
when no level is open; otherwise remove the top level. -/
def spec_endif (ls : List SpecLevel) : List SpecLevel :=
  match ls with
  | [] => ls
  | _ :: rest => rest

/-- Execute one directive on the spec-side stack. -/
def spec_step (ls : List SpecLevel) (op : IfOp) : List SpecLevel :=
  match op with
  | .opIf c => spec_push c ls
  | .opElse => spec_else ls
  | .opEndif => spec_endif ls

/-- Run a directive sequence on the spec-side stack, from empty. -/
def spec_run (ops : List IfOp) : List SpecLevel :=
  ops.foldl spec_step []

/-- Correspondence between a code node and a spec level: the node's `state`
field is the level's effective condition, and `in_else` is `else_taken`. -/
def NodeMatches (n : IfNode) (l : SpecLevel) : Prop :=
  n.state = l.effective ∧ n.in_else = l.else_taken

/-! ## Basic unfolding lemmas for the C operations -/

theorem ifstack_if_stack_eq (c : Bool) (s : IfStackState) :
    (ifstack_if c s).stack = { state := c, in_else := false } :: s.stack := by
  cases hs : s.stack with
  | nil => simp [ifstack_if, ifstack_push, hs]
  | cons d r =>
    by_cases hd : d.state <;> simp [ifstack_if, ifstack_push, hs, hd]

theorem ifstack_else_empty (u : IfStackState) (h : u.stack = []) :
    ifstack_else u = (false, { u with errno := IFSTACK_ERR_ELSE_WITHOUT_IF }) := by
  simp [ifstack_else, h]

theorem ifstack_else_already (u : IfStackState) (top : IfNode) (rest : List IfNode)
    (h : u.stack = top :: rest) (hin : top.in_else = true) :
    ifstack_else u = (false, { u with errno := IFSTACK_ERR_ELSE_WITHOUT_IF }) := by
  simp [ifstack_else, h, hin]

theorem ifstack_else_success (u : IfStackState) (top : IfNode) (rest : List IfNode)
    (h : u.stack = top :: rest) (hin : top.in_else = false) :
    ifstack_else u =
      (true, { u with
               stack := { state := !top.state, in_else := true } :: rest,
               current_state :=
                 if u.current_state then
                   false
                 else
                   match rest with
                   | [] => true
                   | down :: _ => if down.state then true else u.current_state }) := by
  cases rest <;> simp [ifstack_else, h, hin]

theorem ifstack_endif_empty (u : IfStackState) (h : u.stack = []) :
    ifstack_endif u = (false, { u with errno := IFSTACK_ERR_ENDIF_WITHOUT_IF }) := by
  simp [ifstack_endif, h]

theorem ifstack_endif_success (u : IfStackState) (top : IfNode) (rest : List IfNode)
    (h : u.stack = top :: rest) :
    ifstack_endif u =
      (true, { u with
               stack := rest,
               current_state :=
                 match rest with
                 | [] => true
                 | parent :: _ => parent.state }) := by
  cases rest <;> simp [ifstack_endif, ifstack_pull, h]

/-! ## Claims C1 to C6: concrete evaluations of the code -/

/-- C1: the claim states that whenever any enclosing (ancestor) level of the
top of a reachable stack is inactive, `ifstack_true` returns false.  The
code violates this: after `IF(false); IF(true); IF(true)` the bottom
(outermost) level is inactive (`state = false`, no ELSE taken), yet the
global signal is `true` — `ifstack_if` consults only the immediate parent
node's `state`, not the cumulative ancestor state. -/
theorem C1_ancestor_dominance_violated :
    Reachable (ifstack_run [IfOp.opIf false, IfOp.opIf true, IfOp.opIf true]) ∧
    (ifstack_run [IfOp.opIf false, IfOp.opIf true, IfOp.opIf true]).stack =
      [{ state := true, in_else := false },
       { state := true, in_else := false },
       { state := false, in_else := false }] ∧
    (∃ n ∈ (ifstack_run [IfOp.opIf false, IfOp.opIf true, IfOp.opIf true]).stack.tail,
       n.state = false) ∧
    ifstack_true (ifstack_run [IfOp.opIf false, IfOp.opIf true, IfOp.opIf true]) = true :=
  ⟨⟨[IfOp.opIf false, IfOp.opIf true, IfOp.opIf true], rfl⟩, by decide, by decide, by decide⟩

/-- C2: the claim states that a successful `take_else` sets the public
signal to `(NOT raw_condition) AND` the parent's cumulative activation, and
in particular that the signal stays false whenever any ancestor is
inactive.  The code violates this: after `IF(false); IF(true); IF(false)`
the top level's raw condition is `false` and the ancestors' cumulative
activation is `false` (the outermost level is inactive), so the claim
requires the signal to become `false`; yet the ELSE call succeeds, flips
the top node, and sets the signal to `true` because `ifstack_else` consults
only the immediate parent node's `state`. -/
theorem C2_take_else_ancestor_violated :
    (ifstack_else (ifstack_run [IfOp.opIf false, IfOp.opIf true, IfOp.opIf false])).1 = true ∧
    (ifstack_else (ifstack_run [IfOp.opIf false, IfOp.opIf true, IfOp.opIf false])).2.stack =
      [{ state := true, in_else := true },
       { state := true, in_else := false },
       { state := false, in_else := false }] ∧
    ((ifstack_run [IfOp.opIf false, IfOp.opIf true,
        IfOp.opIf false]).stack.tail.map IfNode.state).all id = false ∧
    ifstack_true (ifstack_else
      (ifstack_run [IfOp.opIf false, IfOp.opIf true, IfOp.opIf false])).2 = true := by
  decide

/-- C3: the claim states that after `push_if(c)` the public signal equals
`c AND` the signal's value immediately before the call.  The code violates
this: in the reachable state after `IF(false); IF(true)` the signal is
`false`, yet `push_if(true)` sets it to `true` (because the immediate
parent node's `state` field is true), where the claim requires
`true AND false = false`. -/
theorem C3_push_if_signal_violated :
    ifstack_true (ifstack_run [IfOp.opIf false, IfOp.opIf true]) = false ∧
    ifstack_true (ifstack_if true (ifstack_run [IfOp.opIf false, IfOp.opIf true])) = true ∧
    (true && ifstack_true (ifstack_run [IfOp.opIf false, IfOp.opIf true])) = false := by
  decide

/-- C4: the claim states that running any balanced IF/ELSE/ENDIF sequence
from a reachable state restores the public signal to its value before the
sequence.  The code violates this: from the reachable state after
`IF(false); IF(true)` the signal is `false`, but after the balanced
sequence `IF(true); ENDIF` it is `true` (the ENDIF restores the inner
node's `state`, not the signal value that held before the IF). -/
theorem C4_balanced_roundtrip_violated :
    Balanced [IfOp.opIf true, IfOp.opEndif] = true ∧
    ifstack_true (ifstack_run [IfOp.opIf false, IfOp.opIf true]) = false ∧
    ifstack_true (ifstack_run
      ([IfOp.opIf false, IfOp.opIf true] ++ [IfOp.opIf true, IfOp.opEndif])) = true := by
  decide

/-- C5: the claim states that `pop_endif` on a non-empty stack removes the
top level and sets the public signal to the AND of the effective conditions
of all still-open levels (true when none remain).  The code removes exactly
the top level, but sets the signal to the new top node's `state` field
alone: after `IF(false); IF(true); IF(true)` an ENDIF leaves open levels
with effective conditions `[true, false]` whose AND is `false`, yet the
signal becomes `true`. -/
theorem C5_pop_endif_signal_violated :
    (ifstack_endif (ifstack_run [IfOp.opIf false, IfOp.opIf true, IfOp.opIf true])).1 = true ∧
    (ifstack_endif (ifstack_run [IfOp.opIf false, IfOp.opIf true, IfOp.opIf true])).2.stack =
      (ifstack_run [IfOp.opIf false, IfOp.opIf true, IfOp.opIf true]).stack.tail ∧
    (((ifstack_endif (ifstack_run [IfOp.opIf false, IfOp.opIf true,
        IfOp.opIf true])).2.stack.map IfNode.state).all id) = false ∧
    ifstack_true (ifstack_endif
      (ifstack_run [IfOp.opIf false, IfOp.opIf true, IfOp.opIf true])).2 = true := by
  decide

/-- C6: the concrete scenario from the spec holds on the code: starting
from the initialized stack, `IF(true); IF(false); ELSE; ENDIF; ELSE; ENDIF`
yields the signal values `true, false, true, true, false, true` after the
successive directives, and every ELSE/ENDIF call in the sequence
succeeds. -/
theorem C6_concrete_scenario :
    ifstack_true (ifstack_run [IfOp.opIf true]) = true ∧
    ifstack_true (ifstack_run [IfOp.opIf true, IfOp.opIf false]) = false ∧
    (ifstack_else (ifstack_run [IfOp.opIf true, IfOp.opIf false])).1 = true ∧
    ifstack_true (ifstack_run [IfOp.opIf true, IfOp.opIf false, IfOp.opElse]) = true ∧
    (ifstack_endif (ifstack_run [IfOp.opIf true, IfOp.opIf false, IfOp.opElse])).1 = true ∧
    ifstack_true (ifstack_run
      [IfOp.opIf true, IfOp.opIf false, IfOp.opElse, IfOp.opEndif]) = true ∧
    (ifstack_else (ifstack_run
      [IfOp.opIf true, IfOp.opIf false, IfOp.opElse, IfOp.opEndif])).1 = true ∧
    ifstack_true (ifstack_run
      [IfOp.opIf true, IfOp.opIf false, IfOp.opElse, IfOp.opEndif, IfOp.opElse]) = false ∧
    (ifstack_endif (ifstack_run
      [IfOp.opIf true, IfOp.opIf false, IfOp.opElse, IfOp.opEndif, IfOp.opElse])).1 = true ∧
    ifstack_true (ifstack_run
      [IfOp.opIf true, IfOp.opIf false, IfOp.opElse, IfOp.opEndif,
       IfOp.opElse, IfOp.opEndif]) = true := by
  decide

/-! ## Monotonicity of the `in_else` flags

Indexing the stack from the bottom (outermost level first, i.e. in the
reversed node list) gives each open level a stable position across pushes
and pops; a level's `in_else` flag never goes back from true to false. -/

theorem in_else_mono (t : IfStackState) (op : IfOp) (i : Nat) (n n' : IfNode)
    (hb : t.stack.reverse[i]? = some n)
    (ha : (ifstack_step t op).stack.reverse[i]? = some n')
    (hn : n.in_else = true) : n'.in_else = true := by
  cases op with
  | opIf c =>
    simp only [ifstack_step] at ha
    rw [ifstack_if_stack_eq, List.reverse_cons] at ha
    have hi : i < t.stack.reverse.length := by
      by_contra hge
      push_neg at hge
      rw [List.getElem?_eq_none hge] at hb
      exact Option.noConfusion hb
    rw [List.getElem?_append_left hi, hb] at ha
    injection ha with h
    rw [← h]
    exact hn
  | opElse =>
    cases hs : t.stack with
    | nil =>
      rw [hs] at hb
      simp at hb
    | cons top rest =>
      simp only [ifstack_step] at ha
      by_cases hel : top.in_else
      · rw [ifstack_else_already t top rest hs hel] at ha
        simp only at ha
        rw [hb] at ha
        injection ha with h
        rw [← h]
        exact hn
      · rw [ifstack_else_success t top rest hs (Bool.not_eq_true _ ▸ hel)] at ha
        simp only at ha
        rw [hs, List.reverse_cons] at hb
        rw [List.reverse_cons] at ha
        rcases lt_trichotomy i rest.reverse.length with hlt | heq | hgt
        · rw [List.getElem?_append_left hlt] at ha hb
          rw [hb] at ha
          injection ha with h
          rw [← h]
          exact hn
        · rw [heq, List.getElem?_concat_length] at ha
          injection ha with h
          rw [← h]
        · have hgt' : rest.length < i := by
            rw [List.length_reverse] at hgt
            exact hgt
          have hlen : (rest.reverse ++ [top]).length ≤ i := by
            simp only [List.length_append, List.length_reverse, List.length_cons,
              List.length_nil]
            omega
          rw [List.getElem?_eq_none hlen] at hb
          exact Option.noConfusion hb
  | opEndif =>
    cases hs : t.stack with
    | nil =>
      rw [hs] at hb
      simp at hb
    | cons top rest =>
      simp only [ifstack_step] at ha
      rw [ifstack_endif_success t top rest hs] at ha
      simp only at ha
      rw [hs, List.reverse_cons] at hb
      have hi : i < rest.reverse.length := by
        by_contra hge
        push_neg at hge
        rw [List.getElem?_eq_none hge] at ha
        exact Option.noConfusion ha
      rw [List.getElem?_append_left hi, ha] at hb
      injection hb with h
      rw [h]
      exact hn

/-! ## Claims C7, C8, C10 -/

/-- C7: from any state whose stack is non-empty with the top level's ELSE
not yet taken, the first `ifstack_else` succeeds, a second immediate
`ifstack_else` fails with `IFSTACK_ERR_ELSE_WITHOUT_IF` and leaves the node
list and the public signal exactly as they were after the first call; and
under any directive, a level's `in_else` flag never reverts from true to
false (levels indexed from the bottom of the stack). -/
theorem C7_double_else_rejected (s : IfStackState) (top : IfNode) (rest : List IfNode)
    (hs : s.stack = top :: rest) (hfl : top.in_else = false) :
    (ifstack_else s).1 = true ∧
    (ifstack_else (ifstack_else s).2).1 = false ∧
    (ifstack_else (ifstack_else s).2).2.errno = IFSTACK_ERR_ELSE_WITHOUT_IF ∧
    (ifstack_else (ifstack_else s).2).2.stack = (ifstack_else s).2.stack ∧
    (ifstack_else (ifstack_else s).2).2.current_state = (ifstack_else s).2.current_state ∧
    (∀ (t : IfStackState) (op : IfOp) (i : Nat) (n n' : IfNode),
       t.stack.reverse[i]? = some n →
       (ifstack_step t op).stack.reverse[i]? = some n' →
       n.in_else = true → n'.in_else = true) := by
  have h1 := ifstack_else_success s top rest hs hfl
  have hstack : (ifstack_else s).2.stack =
      { state := !top.state, in_else := true } :: rest := by
    rw [h1]
  have h2 := ifstack_else_already (ifstack_else s).2
    { state := !top.state, in_else := true } rest hstack rfl
  refine ⟨by rw [h1], by rw [h2], by rw [h2], by rw [h2], by rw [h2],
    fun t op i n n' hb ha hn => in_else_mono t op i n n' hb ha hn⟩

/-- C7 witness: instantiated on the reachable state after `IF(true)`. -/
theorem C7_double_else_rejected_witness :
    (ifstack_else (ifstack_run [IfOp.opIf true])).1 = true ∧
    (ifstack_else (ifstack_else (ifstack_run [IfOp.opIf true])).2).1 = false ∧
    (ifstack_else (ifstack_else
      (ifstack_run [IfOp.opIf true])).2).2.errno = IFSTACK_ERR_ELSE_WITHOUT_IF :=
  have h := C7_double_else_rejected (ifstack_run [IfOp.opIf true])
    { state := true, in_else := false } [] (by decide) rfl
  ⟨h.1, h.2.1, h.2.2.1⟩

/-- C8: `ifstack_else` returns false exactly when the stack is empty or the
top node is already in its ELSE branch, and `ifstack_endif` returns false
exactly when the stack is empty; each failing call sets `ifstack_errno` to
the corresponding error code and leaves the node list and the public signal
unchanged. -/
theorem C8_raises_iff_atomic (s : IfStackState) :
    ((ifstack_else s).1 = false ↔
      (s.stack = [] ∨ ∃ top rest, s.stack = top :: rest ∧ top.in_else = true)) ∧
    ((ifstack_else s).1 = false →
      (ifstack_else s).2.errno = IFSTACK_ERR_ELSE_WITHOUT_IF ∧
      (ifstack_else s).2.stack = s.stack ∧
      ifstack_true (ifstack_else s).2 = ifstack_true s) ∧
    ((ifstack_endif s).1 = false ↔ s.stack = []) ∧
    ((ifstack_endif s).1 = false →
      (ifstack_endif s).2.errno = IFSTACK_ERR_ENDIF_WITHOUT_IF ∧
      (ifstack_endif s).2.stack = s.stack ∧
      ifstack_true (ifstack_endif s).2 = ifstack_true s) := by
  cases hs : s.stack with
  | nil =>
    have he := ifstack_else_empty s hs
    have hd := ifstack_endif_empty s hs
    refine ⟨⟨fun _ => Or.inl rfl, fun _ => by rw [he]⟩, fun _ => ?_,
      ⟨fun _ => rfl, fun _ => by rw [hd]⟩, fun _ => ?_⟩
    · rw [he]
      exact ⟨rfl, by rw [hs], rfl⟩
    · rw [hd]
      exact ⟨rfl, by rw [hs], rfl⟩
  | cons top rest =>
    have hd := ifstack_endif_success s top rest hs
    by_cases hel : top.in_else
    · have he := ifstack_else_already s top rest hs hel
      refine ⟨⟨fun _ => Or.inr ⟨top, rest, rfl, hel⟩, fun _ => by rw [he]⟩,
        fun _ => by rw [he]; exact ⟨rfl, hs, rfl⟩,
        ⟨fun hc => by rw [hd] at hc; exact Bool.noConfusion hc,
         fun hc => List.noConfusion hc⟩,
        fun hc => by rw [hd] at hc; exact Bool.noConfusion hc⟩
    · have he := ifstack_else_success s top rest hs (Bool.not_eq_true _ ▸ hel)
      refine ⟨⟨fun hc => by rw [he] at hc; exact Bool.noConfusion hc, fun hc => ?_⟩,
        fun hc => by rw [he] at hc; exact Bool.noConfusion hc,
        ⟨fun hc => by rw [hd] at hc; exact Bool.noConfusion hc,
         fun hc => List.noConfusion hc⟩,
        fun hc => by rw [hd] at hc; exact Bool.noConfusion hc⟩
      rcases hc with hnil | ⟨top', rest', heq, hin⟩
      · exact List.noConfusion hnil
      · injection heq with h₁ _
        rw [← h₁] at hin
        exact absurd hin hel

/-- C8 witness: instantiated on the initialized (empty) stack. -/
theorem C8_raises_iff_atomic_witness :
    (ifstack_endif ifstack_init).1 = false ∧
    (ifstack_endif ifstack_init).2.errno = IFSTACK_ERR_ENDIF_WITHOUT_IF ∧
    (ifstack_else ifstack_init).1 = false ∧
    (ifstack_else ifstack_init).2.errno = IFSTACK_ERR_ELSE_WITHOUT_IF :=
  have h := C8_raises_iff_atomic ifstack_init
  have hdf : (ifstack_endif ifstack_init).1 = false := h.2.2.1.mpr rfl
  have hef : (ifstack_else ifstack_init).1 = false := h.1.mpr (Or.inl rfl)
  ⟨hdf, (h.2.2.2 hdf).1, hef, (h.2.1 hef).1⟩

/-- C10: `ifstack_init` sets `ifstack_errno` to `IFSTACK_ERR_OK`, and no
successful operation writes `ifstack_errno`: `ifstack_if` (which always
succeeds) and successful `ifstack_else` / `ifstack_endif` calls leave it
unchanged, so after a failure the last error's code persists across later
successful operations.  (`ifstack_true` and `ifstack_print` are read-only
queries in the embedding, as in the source.) -/
theorem C10_errno_frame :
    ifstack_init.errno = IFSTACK_ERR_OK ∧
    (∀ (s : IfStackState) (c : Bool), (ifstack_if c s).errno = s.errno) ∧
    (∀ s : IfStackState, (ifstack_else s).1 = true → (ifstack_else s).2.errno = s.errno) ∧
    (∀ s : IfStackState, (ifstack_endif s).1 = true → (ifstack_endif s).2.errno = s.errno) := by
  refine ⟨rfl, fun s c => ?_, fun s h => ?_, fun s h => ?_⟩
  · cases hs : s.stack with
    | nil => simp [ifstack_if, ifstack_push, hs]
    | cons d r => by_cases hd : d.state <;> simp [ifstack_if, ifstack_push, hs, hd]
  · cases hs : s.stack with
    | nil =>
      rw [ifstack_else_empty s hs] at h
      exact Bool.noConfusion h
    | cons top rest =>
      by_cases hel : top.in_else
      · rw [ifstack_else_already s top rest hs hel] at h
        exact Bool.noConfusion h
      · rw [ifstack_else_success s top rest hs (Bool.not_eq_true _ ▸ hel)]
  · cases hs : s.stack with
    | nil =>
      rw [ifstack_endif_empty s hs] at h
      exact Bool.noConfusion h
    | cons top rest =>
      rw [ifstack_endif_success s top rest hs]

/-- C10 witness: instantiated on the reachable state after `IF(true)` and
its successful ELSE. -/
theorem C10_errno_frame_witness :
    (ifstack_if false ifstack_init).errno = ifstack_init.errno ∧
    (ifstack_else (ifstack_run [IfOp.opIf true])).2.errno =
      (ifstack_run [IfOp.opIf true]).errno ∧
    (ifstack_endif (ifstack_run [IfOp.opIf true])).2.errno =
      (ifstack_run [IfOp.opIf true]).errno :=
  ⟨C10_errno_frame.2.1 ifstack_init false,
   C10_errno_frame.2.2.1 (ifstack_run [IfOp.opIf true]) (by decide),
   C10_errno_frame.2.2.2 (ifstack_run [IfOp.opIf true]) (by decide)⟩

/-! ## Claim C9: the snapshot refines the spec-side effective conditions -/

theorem nodeMatches_map_eq {l₁ : List IfNode} {l₂ : List SpecLevel}
    (h : List.Forall₂ NodeMatches l₁ l₂) :
    l₁.map IfNode.state = l₂.map SpecLevel.effective := by
  induction h with
  | nil => rfl
  | cons h₁ _ ih => simp [ih, h₁.1]

theorem ifstack_step_refines (s : IfStackState) (ls : List SpecLevel)
    (h : List.Forall₂ NodeMatches s.stack ls) (op : IfOp) :
    List.Forall₂ NodeMatches (ifstack_step s op).stack (spec_step ls op) := by
  cases op with
  | opIf c =>
    have hst : (ifstack_step s (IfOp.opIf c)).stack =
        { state := c, in_else := false } :: s.stack := ifstack_if_stack_eq c s
    rw [hst]
    simp only [spec_step, spec_push]
    exact List.Forall₂.cons ⟨by simp [SpecLevel.effective], rfl⟩ h
  | opElse =>
    cases hs : s.stack with
    | nil =>
      rw [hs] at h
      cases h
      have hst : (ifstack_step s IfOp.opElse).stack = s.stack := by
        rw [show ifstack_step s IfOp.opElse = (ifstack_else s).2 from rfl,
          ifstack_else_empty s hs]
      rw [hst, hs]
      exact List.Forall₂.nil
    | cons top rest =>
      rw [hs] at h
      cases h with
      | cons htop hrest =>
        rename_i ltop lrest
        by_cases hel : top.in_else
        · have hst : (ifstack_step s IfOp.opElse).stack = s.stack := by
            rw [show ifstack_step s IfOp.opElse = (ifstack_else s).2 from rfl,
              ifstack_else_already s top rest hs hel]
          have hlel : ltop.else_taken = true := htop.2 ▸ hel
          rw [hst, hs]
          simp only [spec_step, spec_else, hlel, if_pos rfl]
          exact List.Forall₂.cons htop hrest
        · have hel' : top.in_else = false := Bool.not_eq_true _ ▸ hel
          have hst : (ifstack_step s IfOp.opElse).stack =
              { state := !top.state, in_else := true } :: rest := by
            rw [show ifstack_step s IfOp.opElse = (ifstack_else s).2 from rfl,
              ifstack_else_success s top rest hs hel']
          have hlel : ltop.else_taken = false := htop.2 ▸ hel'
          rw [hst]
          simp only [spec_step, spec_else, hlel, Bool.false_eq_true, if_false]
          refine List.Forall₂.cons ⟨?_, rfl⟩ hrest
          have hts : top.state = ltop.raw_condition := by
            rw [htop.1]
            simp [SpecLevel.effective, hlel]
          simp [SpecLevel.effective, hts]
  | opEndif =>
    cases hs : s.stack with
    | nil =>
      rw [hs] at h
      cases h
      have hst : (ifstack_step s IfOp.opEndif).stack = s.stack := by
        rw [show ifstack_step s IfOp.opEndif = (ifstack_endif s).2 from rfl,
          ifstack_endif_empty s hs]
      rw [hst, hs]
      exact List.Forall₂.nil
    | cons top rest =>
      rw [hs] at h
      cases h with
      | cons htop hrest =>
        have hst : (ifstack_step s IfOp.opEndif).stack = rest := by
          rw [show ifstack_step s IfOp.opEndif = (ifstack_endif s).2 from rfl,
            ifstack_endif_success s top rest hs]
        rw [hst]
        exact hrest

theorem ifstack_run_refines (ops : List IfOp) :
    List.Forall₂ NodeMatches (ifstack_run ops).stack (spec_run ops) := by
  have key : ∀ (l : List IfOp) (s : IfStackState) (ls : List SpecLevel),
      List.Forall₂ NodeMatches s.stack ls →
      List.Forall₂ NodeMatches (l.foldl ifstack_step s).stack (l.foldl spec_step ls) := by
    intro l
    induction l with
    | nil => intro s ls h; exact h
    | cons op rest ih =>
      intro s ls h
      exact ih _ _ (ifstack_step_refines s ls h op)
  exact key ops ifstack_init [] List.Forall₂.nil

/-- C9: for every directive sequence (hence for every reachable state), the
bit sequence emitted by `ifstack_print` is, outermost level first, the
current effective condition — the raw IF condition negated when that
level's ELSE has been taken — of every open level of the spec-side model
run over the same directives; `ifstack_print` is a pure query of the state
in the embedding, matching the read-only C traversal. -/
theorem C9_snapshot_effective (ops : List IfOp) :
    ifstack_print (ifstack_run ops) =
      ((spec_run ops).map SpecLevel.effective).reverse := by
  have h := ifstack_run_refines ops
  unfold ifstack_print
  rw [nodeMatches_map_eq h]

/-- C9 witness: instantiated on `IF(true); IF(false); ELSE`. -/
theorem C9_snapshot_effective_witness :
    ifstack_print (ifstack_run [IfOp.opIf true, IfOp.opIf false, IfOp.opElse]) =
      ((spec_run [IfOp.opIf true, IfOp.opIf false,
        IfOp.opElse]).map SpecLevel.effective).reverse :=
  C9_snapshot_effective [IfOp.opIf true, IfOp.opIf false, IfOp.opElse]

end IfStack
